import Mathlib

/-!
Verification of the capture-coordination core of `src/server.py`.

The embedding is a faithful functional translation of the module-level
mutable state of `server.py` and of the handlers that mutate it:

* `connected_clients`, `client_ip_to_session_id`, `frame_counters`,
  `pending_captures`, `capture_responses`, `capture_image_paths`
  are the module-level dictionaries and sets of the Python source,
  modelled as `Finset Nat` (sets of session ids) and association
  lists with unique keys (Python dicts).
* Session ids, client ips, capture ids, artifact handles and server
  client ids are all modelled as `Nat`; capture ids are the
  microsecond timestamps from which `strftime` derives the textual id
  (the format is injective on microsecond timestamps, so `Nat`
  timestamps model the ids faithfully).
* The HTTP POST to the `/process` endpoint performed inside
  `handle_capture_response` is recorded in a `notifications` log,
  one entry `(capture_id, image_paths, ok)` per call, where `ok` is
  the outcome of the downstream call; the Python code only prints the
  outcome, so the state transition does not depend on `ok`.
-/

set_option maxRecDepth 4000

namespace ImageSender

/-- Association-list lookup, first binding wins; models Python dict
lookup under the dict invariant that keys are unique. -/
def lookupA {α : Type} : List (Nat × α) → Nat → Option α
  | [], _ => none
  | (k, v) :: t, k2 => if k = k2 then some v else lookupA t k2

/-- Association-list insert-or-replace; models Python dict assignment. -/
def insertA {α : Type} : List (Nat × α) → Nat → α → List (Nat × α)
  | [], k, v => [(k, v)]
  | (k2, v2) :: t, k, v => if k2 = k then (k, v) :: t else (k2, v2) :: insertA t k v

/-- Association-list deletion; models Python `del d[k]`. -/
def eraseA {α : Type} : List (Nat × α) → Nat → List (Nat × α)
  | [], _ => []
  | (k2, v2) :: t, k => if k2 = k then t else (k2, v2) :: eraseA t k

/-- Keys of the association list are pairwise distinct (the Python
dict invariant). -/
def keysNodup {α : Type} (l : List (Nat × α)) : Prop := (l.map Prod.fst).Nodup

/-- The module-level mutable state of `server.py`: the live session
set, the ip-to-session map, the per-tracking-id frame counters, the
three capture-tracking dicts, and a log of the `/process` calls made
so far (capture id, ordered image-path list, downstream outcome). -/
structure ServerState where
  connected_clients : Finset Nat
  client_ip_to_session_id : List (Nat × Nat)
  frame_counters : List (Nat × Nat)
  pending_captures : List (Nat × Finset Nat)
  capture_responses : List (Nat × Finset Nat)
  capture_image_paths : List (Nat × List Nat)
  notifications : List (Nat × List Nat × Bool)
  deriving DecidableEq

/-- The initial state: every module-level container of `server.py`
starts out empty. -/
def initState : ServerState := ⟨∅, [], [], [], [], [], []⟩

/-- `handle_connect` (server.py `@socketio.on('connect')`): adds the
session to `connected_clients` and points `client_ip_to_session_id`
at the new session, overwriting any previous mapping for that ip. -/
def handle_connect (sid client_ip : Nat) (s : ServerState) : ServerState :=
  { s with
    connected_clients := insert sid s.connected_clients
    client_ip_to_session_id := insertA s.client_ip_to_session_id client_ip sid }

/-- `handle_client_ready` (server.py `@socketio.on('client_ready')`):
re-adds the session to `connected_clients` if it is missing. -/
def handle_client_ready (sid : Nat) (s : ServerState) : ServerState :=
  if sid ∈ s.connected_clients then s
  else { s with connected_clients := insert sid s.connected_clients }

/-- The per-capture effect of a disconnect on `pending_captures`
(server.py lines 534-549): for each capture whose expected set
contains the disconnecting session, discard the session; captures
whose expected set becomes empty are dropped and their ids collected
(first component: surviving dict, second: removed capture ids). -/
def disconnectCaptures (sid : Nat) : List (Nat × Finset Nat) → List (Nat × Finset Nat) × List Nat
  | [] => ([], [])
  | (cid, expected) :: t =>
    let r := disconnectCaptures sid t
    if sid ∈ expected then
      if expected.erase sid = ∅ then (r.1, cid :: r.2)
      else ((cid, expected.erase sid) :: r.1, r.2)
    else ((cid, expected) :: r.1, r.2)

/-- `handle_disconnect` (server.py `@socketio.on('disconnect')`):
removes the session from `connected_clients`; removes the ip mapping
only when the caller's ip resolves and currently maps to exactly this
session; discards the session from every pending capture that expects
it, deleting captures whose expected set becomes empty (together with
their response and image-path entries).  No completion check happens
on this path, so no `/process` call is ever issued here. -/
def handle_disconnect (sid : Nat) (client_ip : Option Nat) (s : ServerState) : ServerState :=
  let r := disconnectCaptures sid s.pending_captures
  { s with
    connected_clients := s.connected_clients.erase sid
    client_ip_to_session_id :=
      match client_ip with
      | none => s.client_ip_to_session_id
      | some a =>
        if lookupA s.client_ip_to_session_id a = some sid then
          eraseA s.client_ip_to_session_id a
        else s.client_ip_to_session_id
    pending_captures := r.1
    capture_responses := r.2.foldl eraseA s.capture_responses
    capture_image_paths := r.2.foldl eraseA s.capture_image_paths }

/-- `handle_capture_response` (server.py lines 254-316): if the frame
carries a capture id naming a live pending capture, the tracking id
is added to `capture_responses[cid]` (a set) and the artifact is
appended to `capture_image_paths[cid]` (a list, appended
unconditionally); if the responded set now contains every expected
session, the `/process` endpoint is called once with the accumulated
ordered path list and all three dict entries are deleted regardless
of the outcome `ok` of that call.  Membership of the tracking id in
the expected set is never checked.  A missing or unknown capture id
makes the whole function a no-op on this state. -/
def handle_capture_response (capture_id : Option Nat) (tracking_id artifact : Nat)
    (ok : Bool) (s : ServerState) : ServerState :=
  match capture_id with
  | none => s
  | some cid =>
    match lookupA s.pending_captures cid with
    | none => s
    | some expected_clients =>
      let responded := insert tracking_id ((lookupA s.capture_responses cid).getD ∅)
      let paths := ((lookupA s.capture_image_paths cid).getD []) ++ [artifact]
      if expected_clients ⊆ responded then
        { s with
          pending_captures := eraseA s.pending_captures cid
          capture_responses := eraseA s.capture_responses cid
          capture_image_paths := eraseA s.capture_image_paths cid
          notifications := s.notifications ++ [(cid, paths, ok)] }
      else
        { s with
          capture_responses := insertA s.capture_responses cid responded
          capture_image_paths := insertA s.capture_image_paths cid paths }

/-- `cleanup_stale_connections` (server.py lines 462-501): intersects
`connected_clients` with the transport's ground-truth session set and
drops ip mappings whose session is among the removed (stale) ones. -/
def cleanup_stale_connections (actual : Finset Nat) (s : ServerState) : ServerState :=
  let stale := s.connected_clients \ actual
  { s with
    connected_clients := s.connected_clients \ stale
    client_ip_to_session_id :=
      s.client_ip_to_session_id.filter (fun p => p.2 ∉ stale) }

/-- `trigger_capture` (server.py lines 653-687): first reconciles via
`cleanup_stale_connections`, then, if any client remains connected,
opens a capture under the time-derived id: `pending_captures[cid]`
becomes a copy of the connected set and `capture_responses[cid]` the
empty set.  Returns `false` (the `NoClientsConnected` outcome) and
opens nothing when the reconciled live set is empty. -/
def trigger_capture (actual : Finset Nat) (capture_id : Nat) (s : ServerState) :
    Bool × ServerState :=
  let s2 := cleanup_stale_connections actual s
  if s2.connected_clients = ∅ then (false, s2)
  else
    (true,
     { s2 with
       pending_captures := insertA s2.pending_captures capture_id s2.connected_clients
       capture_responses := insertA s2.capture_responses capture_id ∅ })

/-- The frame-number bookkeeping inside `save_frame_files` (server.py
lines 200-206): the counter for the tracking id is initialised to 0
when absent, incremented, and the incremented value is the frame
number of this upload. -/
def save_frame_counter (tracking_id : Nat) (s : ServerState) : Nat × ServerState :=
  let n := ((lookupA s.frame_counters tracking_id).getD 0) + 1
  (n, { s with frame_counters := insertA s.frame_counters tracking_id n })

/-- The tracking id chosen by `save_frame_files` (server.py line 202):
the websocket session id when available, otherwise the server-side
client id. -/
def trackingIdOf (websocket_session_id : Option Nat) (client_id : Nat) : Nat :=
  websocket_session_id.getD client_id

/-- The externally induced events the coordinator consumes.  A
`frameResponse` is a websocket `frame_response`: the tracking id is
the websocket session id, the frame counter is bumped and then the
capture bookkeeping runs; `ok` is the outcome of any `/process` call
the response may trigger.  A `trigger` carries the transport's
ground-truth session set and the timestamp-derived capture id. -/
inductive Event where
  | connect (sid client_ip : Nat)
  | clientReady (sid : Nat)
  | disconnect (sid : Nat) (client_ip : Option Nat)
  | frameResponse (sid : Nat) (capture_id : Option Nat) (artifact : Nat) (ok : Bool)
  | trigger (actual : Finset Nat) (capture_id : Nat)
  | reconcile (actual : Finset Nat)
  deriving DecidableEq

/-- One step of the server: dispatch an event to its handler. -/
def step (e : Event) (s : ServerState) : ServerState :=
  match e with
  | .connect sid ip => handle_connect sid ip s
  | .clientReady sid => handle_client_ready sid s
  | .disconnect sid ip => handle_disconnect sid ip s
  | .frameResponse sid cid art ok =>
      handle_capture_response cid sid art ok (save_frame_counter sid s).2
  | .trigger actual cid => (trigger_capture actual cid s).2
  | .reconcile actual => cleanup_stale_connections actual s

/-- Run a list of events from a state, front first. -/
def run (es : List Event) (s : ServerState) : ServerState :=
  es.foldl (fun s e => step e s) s

/-- The one-capture effect of a disconnect, as a partial map on the
expected set: discard the session, drop the capture when the set
empties, leave captures that never expected the session alone. -/
def discStep (d : Nat) (E : Finset Nat) : Option (Finset Nat) :=
  if d ∈ E then (if E.erase d = ∅ then none else some (E.erase d)) else some E

theorem lookupA_insertA_self {α : Type} (l : List (Nat × α)) (k : Nat) (v : α) :
    lookupA (insertA l k v) k = some v := by
  induction l with
  | nil => simp [insertA, lookupA]
  | cons hd tl ih =>
    obtain ⟨k2, v2⟩ := hd
    simp only [insertA]
    by_cases h : k2 = k
    · simp [h, lookupA]
    · simp [h, lookupA, ih]

theorem lookupA_insertA_ne {α : Type} (l : List (Nat × α)) (k q : Nat) (v : α)
    (h : q ≠ k) : lookupA (insertA l k v) q = lookupA l q := by
  induction l with
  | nil => simp [insertA, lookupA, Ne.symm h]
  | cons hd tl ih =>
    obtain ⟨k2, v2⟩ := hd
    simp only [insertA]
    by_cases h2 : k2 = k
    · subst h2
      simp [lookupA, Ne.symm h]
    · simp only [if_neg h2, lookupA]
      by_cases h3 : k2 = q
      · simp [h3]
      · simp [h3, ih]

theorem lookupA_eq_none {α : Type} (l : List (Nat × α)) (k : Nat)
    (h : k ∉ l.map Prod.fst) : lookupA l k = none := by
  induction l with
  | nil => rfl
  | cons hd tl ih =>
    obtain ⟨k2, v2⟩ := hd
    simp only [List.map_cons, List.mem_cons] at h
    push_neg at h
    simp [lookupA, Ne.symm h.1, ih h.2]

theorem lookupA_eraseA_ne {α : Type} (l : List (Nat × α)) (k q : Nat)
    (h : q ≠ k) : lookupA (eraseA l k) q = lookupA l q := by
  induction l with
  | nil => rfl
  | cons hd tl ih =>
    obtain ⟨k2, v2⟩ := hd
    simp only [eraseA]
    by_cases h2 : k2 = k
    · subst h2
      simp [lookupA, Ne.symm h]
    · simp only [if_neg h2, lookupA]
      by_cases h3 : k2 = q
      · simp [h3]
      · simp [h3, ih]

theorem lookupA_eraseA_self {α : Type} (l : List (Nat × α)) (k : Nat)
    (h : keysNodup l) : lookupA (eraseA l k) k = none := by
  induction l with
  | nil => rfl
  | cons hd tl ih =>
    obtain ⟨k2, v2⟩ := hd
    simp only [keysNodup, List.map_cons, List.nodup_cons] at h
    simp only [eraseA]
    by_cases h2 : k2 = k
    · subst h2
      rw [if_pos rfl]
      exact lookupA_eq_none tl k2 h.1
    · simp only [if_neg h2, lookupA, if_neg h2]
      exact ih h.2

theorem mem_keys_insertA {α : Type} (l : List (Nat × α)) (k q : Nat) (v : α) :
    q ∈ (insertA l k v).map Prod.fst ↔ q ∈ l.map Prod.fst ∨ q = k := by
  induction l with
  | nil => simp [insertA]
  | cons hd tl ih =>
    obtain ⟨k2, v2⟩ := hd
    simp only [insertA]
    by_cases h : k2 = k
    · subst h
      rw [if_pos rfl]
      simp only [List.map_cons, List.mem_cons]
      tauto
    · simp only [if_neg h, List.map_cons, List.mem_cons, ih]
      tauto

theorem keysNodup_insertA {α : Type} (l : List (Nat × α)) (k : Nat) (v : α)
    (h : keysNodup l) : keysNodup (insertA l k v) := by
  induction l with
  | nil => simp [keysNodup, insertA]
  | cons hd tl ih =>
    obtain ⟨k2, v2⟩ := hd
    simp only [keysNodup, List.map_cons, List.nodup_cons] at h
    simp only [insertA]
    by_cases h2 : k2 = k
    · subst h2
      rw [if_pos rfl]
      simp only [keysNodup, List.map_cons, List.nodup_cons]
      exact h
    · simp only [if_neg h2, keysNodup, List.map_cons, List.nodup_cons]
      refine ⟨?_, ih h.2⟩
      rw [mem_keys_insertA]
      push_neg
      exact ⟨h.1, h2⟩

theorem keys_eraseA_sublist {α : Type} (l : List (Nat × α)) (k : Nat) :
    ((eraseA l k).map Prod.fst).Sublist (l.map Prod.fst) := by
  induction l with
  | nil => simp [eraseA]
  | cons hd tl ih =>
    obtain ⟨k2, v2⟩ := hd
    simp only [eraseA]
    by_cases h : k2 = k
    · simp only [if_pos h, List.map_cons]
      exact (List.Sublist.refl _).cons _
    · simp only [if_neg h, List.map_cons]
      exact ih.cons₂ _

theorem keysNodup_eraseA {α : Type} (l : List (Nat × α)) (k : Nat)
    (h : keysNodup l) : keysNodup (eraseA l k) :=
  h.sublist (keys_eraseA_sublist l k)

theorem keys_disconnectCaptures_sublist (d : Nat) (l : List (Nat × Finset Nat)) :
    (((disconnectCaptures d l).1).map Prod.fst).Sublist (l.map Prod.fst) := by
  induction l with
  | nil => simp [disconnectCaptures]
  | cons hd tl ih =>
    obtain ⟨cid, E⟩ := hd
    simp only [disconnectCaptures]
    by_cases h1 : d ∈ E
    · by_cases h2 : E.erase d = ∅
      · simp only [if_pos h1, if_pos h2, List.map_cons]
        exact ih.cons _
      · simp only [if_pos h1, if_neg h2, List.map_cons]
        exact ih.cons₂ _
    · simp only [if_neg h1, List.map_cons]
      exact ih.cons₂ _

theorem keysNodup_disconnectCaptures (d : Nat) (l : List (Nat × Finset Nat))
    (h : keysNodup l) : keysNodup (disconnectCaptures d l).1 :=
  h.sublist (keys_disconnectCaptures_sublist d l)

theorem lookupA_disconnectCaptures (d : Nat) (l : List (Nat × Finset Nat)) (q : Nat)
    (h : keysNodup l) :
    lookupA (disconnectCaptures d l).1 q = (lookupA l q).bind (discStep d) := by
  induction l with
  | nil => rfl
  | cons hd tl ih =>
    obtain ⟨cid, E⟩ := hd
    simp only [keysNodup, List.map_cons, List.nodup_cons] at h
    have ihtl := ih h.2
    simp only [disconnectCaptures]
    by_cases h1 : d ∈ E
    · by_cases h2 : E.erase d = ∅
      · simp only [if_pos h1, if_pos h2]
        by_cases h3 : cid = q
        · subst h3
          have hnot : cid ∉ ((disconnectCaptures d tl).1).map Prod.fst := fun hc =>
            h.1 ((keys_disconnectCaptures_sublist d tl).subset hc)
          rw [lookupA_eq_none _ _ hnot]
          simp [lookupA, discStep, h1, h2]
        · simp only [lookupA, if_neg h3]
          exact ihtl
      · simp only [if_pos h1, if_neg h2]
        by_cases h3 : cid = q
        · simp [lookupA, if_pos h3, discStep, h1, h2]
        · simp only [lookupA, if_neg h3]
          exact ihtl
    · simp only [if_neg h1]
      by_cases h3 : cid = q
      · simp [lookupA, if_pos h3, discStep, h1]
      · simp only [lookupA, if_neg h3]
        exact ihtl

theorem lookupA_handle_disconnect_pending (d q : Nat) (ip : Option Nat)
    (s : ServerState) (h : keysNodup s.pending_captures) :
    lookupA (handle_disconnect d ip s).pending_captures q =
      (lookupA s.pending_captures q).bind (discStep d) :=
  lookupA_disconnectCaptures d s.pending_captures q h

/-- The C1 scenario trace: sessions 1, 2, 3 connect (ips 11, 12, 13),
a capture opens with id 100, sessions 1 and 3 respond with artifacts
500 and 700, then session 2 disconnects last. -/
def c1Trace : List Event :=
  [ .connect 1 11, .connect 2 12, .connect 3 13,
    .trigger {1, 2, 3} 100,
    .frameResponse 1 (some 100) 500 true,
    .frameResponse 3 (some 100) 700 true,
    .disconnect 2 (some 12) ]

/-- The state reached by the C1 scenario trace. -/
def c1Final : ServerState := run c1Trace initState

/-- C1: in the scenario where a capture opens with expected {1,2,3},
sessions 1 and 3 respond and session 2 disconnects last, the code
leaves capture 100 live and pending (expected set {1,3}, responded
set {1,3}) and never calls the `/process` endpoint: the disconnect
path performs no completion check, so the capture neither completes
nor notifies, contradicting the claimed transition to Completed with
one `notifyProcessingReady` call. -/
theorem C1_capture_stuck :
    (lookupA c1Final.pending_captures 100).isSome = true ∧
    1 ∈ (lookupA c1Final.pending_captures 100).getD ∅ ∧
    3 ∈ (lookupA c1Final.pending_captures 100).getD ∅ ∧
    2 ∉ (lookupA c1Final.pending_captures 100).getD ∅ ∧
    ((lookupA c1Final.pending_captures 100).getD ∅).card = 2 ∧
    1 ∈ (lookupA c1Final.capture_responses 100).getD ∅ ∧
    3 ∈ (lookupA c1Final.capture_responses 100).getD ∅ ∧
    ((lookupA c1Final.capture_responses 100).getD ∅).card = 2 ∧
    c1Final.notifications = [] := by
  decide

/-- A state with one open capture 7 expecting sessions 1 and 2,
nobody responded yet. -/
def c2State : ServerState := ⟨∅, [], [], [(7, {1, 2})], [(7, ∅)], [], []⟩

/-- The state after session 1 responds twice to capture 7, with the
two different artifact handles 10 and 20. -/
def c2Final : ServerState :=
  handle_capture_response (some 7) 1 20 true
    (handle_capture_response (some 7) 1 10 true c2State)

/-- C2 counterexample: after session 1 responds twice to the same
open capture with two different artifact handles, `responded` does
contain session 1 exactly once, but `capture_image_paths` holds TWO
entries for it (both handles, in arrival order), because the code
appends the path unconditionally; the claim that the artifact list
keeps exactly one entry (the first accepted) is false. -/
theorem C2_cex_duplicate_artifact :
    (lookupA c2Final.capture_image_paths 7).getD [] = [10, 20] ∧
    ((lookupA c2Final.capture_image_paths 7).getD []).length ≠ 1 ∧
    1 ∈ (lookupA c2Final.capture_responses 7).getD ∅ ∧
    ((lookupA c2Final.capture_responses 7).getD ∅).card = 1 := by
  decide

/-- C2 amended: a double response from the same session to the same
still-open capture is idempotent on `responded` (a set, so the
session is counted once) but not on the artifact list: each response
appends its handle, so after two responses with handles `a1` then
`a2` the capture's path list ends with both, in that order. -/
theorem C2_amended_double_response (s : ServerState) (cid t a1 a2 : Nat)
    (ok1 ok2 : Bool) (E R : Finset Nat) (P : List Nat)
    (hp : lookupA s.pending_captures cid = some E)
    (hR : (lookupA s.capture_responses cid).getD ∅ = R)
    (hP : (lookupA s.capture_image_paths cid).getD [] = P)
    (hnc : ¬ E ⊆ insert t R) :
    lookupA (handle_capture_response (some cid) t a2 ok2
        (handle_capture_response (some cid) t a1 ok1 s)).capture_responses cid
      = some (insert t R) ∧
    lookupA (handle_capture_response (some cid) t a2 ok2
        (handle_capture_response (some cid) t a1 ok1 s)).capture_image_paths cid
      = some (P ++ [a1, a2]) := by
  have h1 : handle_capture_response (some cid) t a1 ok1 s =
      { s with
        capture_responses := insertA s.capture_responses cid (insert t R)
        capture_image_paths := insertA s.capture_image_paths cid (P ++ [a1]) } := by
    simp [handle_capture_response, hp, hR, hP, if_neg hnc]
  rw [h1]
  have hp2 : lookupA s.pending_captures cid = some E := hp
  have hR2 : lookupA (insertA s.capture_responses cid (insert t R)) cid
      = some (insert t R) := lookupA_insertA_self _ _ _
  have hP2 : lookupA (insertA s.capture_image_paths cid (P ++ [a1])) cid
      = some (P ++ [a1]) := lookupA_insertA_self _ _ _
  have hnc2 : ¬ E ⊆ insert t (insert t R) := by
    rw [Finset.insert_idem]
    exact hnc
  constructor
  · simp only [handle_capture_response, hp2, hR2, hP2, Option.getD_some,
      Finset.insert_idem, if_neg hnc]
    simpa using lookupA_insertA_self _ cid (insert t R)
  · simp only [handle_capture_response, hp2, hR2, hP2, Option.getD_some,
      Finset.insert_idem, if_neg hnc]
    simpa using lookupA_insertA_self _ cid (P ++ [a1, a2])

/-- Witness for the amended C2 theorem at the concrete double-response
scenario of the counterexample state. -/
theorem C2_amended_double_response_witness :
    lookupA (handle_capture_response (some 7) 1 20 true
        (handle_capture_response (some 7) 1 10 true c2State)).capture_responses 7
      = some (insert 1 ∅) ∧
    lookupA (handle_capture_response (some 7) 1 20 true
        (handle_capture_response (some 7) 1 10 true c2State)).capture_image_paths 7
      = some ([] ++ [10, 20]) :=
  C2_amended_double_response c2State 7 1 10 20 true true {1, 2} ∅ []
    rfl rfl rfl (by decide)

/-- A state with one open capture 7 expecting only session 2, nobody
responded yet. -/
def c3State : ServerState := ⟨∅, [], [], [(7, {2})], [(7, ∅)], [], []⟩

/-- The state after session 1 — which is NOT in the expected set —
responds to capture 7 with artifact 10. -/
def c3Final : ServerState := handle_capture_response (some 7) 1 10 true c3State

/-- C3 counterexample: a response from session 1, which is not in
capture 7's expected set {2}, is not a no-op: the code records it in
`responded` and appends its artifact, so afterwards `responded = {1}`
is not a subset of `expected = {2}`; the claimed invariant
`responded ⊆ expected` and the claimed non-member no-op are false. -/
theorem C3_cex_nonmember_recorded :
    1 ∈ (lookupA c3Final.capture_responses 7).getD ∅ ∧
    ¬ (lookupA c3Final.capture_responses 7).getD ∅ ⊆
        (lookupA c3Final.pending_captures 7).getD ∅ ∧
    (lookupA c3Final.capture_image_paths 7).getD [] = [10] ∧
    (lookupA c3State.capture_image_paths 7).getD [] = [] := by
  decide

/-- C3 amended: the guard of `handle_capture_response` checks only
that the capture id names a live pending capture; membership of the
responding session in the expected set is never consulted, so any
session's response to a live capture is recorded in `responded` (and
`responded ⊆ expected` can fail).  Only a missing capture id, or an
id with no live pending entry, makes the operation a no-op. -/
theorem C3_amended_liveness_guard (s : ServerState) (cid t a : Nat) (ok : Bool)
    (E R : Finset Nat)
    (hp : lookupA s.pending_captures cid = some E)
    (hR : (lookupA s.capture_responses cid).getD ∅ = R)
    (hnc : ¬ E ⊆ insert t R) :
    lookupA (handle_capture_response (some cid) t a ok s).capture_responses cid
      = some (insert t R) ∧
    (∀ (s2 : ServerState) (cid2 : Nat), lookupA s2.pending_captures cid2 = none →
      handle_capture_response (some cid2) t a ok s2 = s2) ∧
    (∀ s2 : ServerState, handle_capture_response none t a ok s2 = s2) := by
  refine ⟨?_, ?_, ?_⟩
  · simp [handle_capture_response, hp, hR, if_neg hnc, lookupA_insertA_self]
  · intro s2 cid2 h2
    simp [handle_capture_response, h2]
  · intro s2
    rfl

/-- Witness for the amended C3 theorem: the non-member response of
the counterexample state is recorded, and a response against a dead
id is a no-op. -/
theorem C3_amended_liveness_guard_witness :
    lookupA (handle_capture_response (some 7) 1 10 true c3State).capture_responses 7
      = some (insert 1 ∅) ∧
    (∀ (s2 : ServerState) (cid2 : Nat), lookupA s2.pending_captures cid2 = none →
      handle_capture_response (some cid2) 1 10 true s2 = s2) ∧
    (∀ s2 : ServerState, handle_capture_response none 1 10 true s2 = s2) :=
  C3_amended_liveness_guard c3State 7 1 10 true {2} ∅ rfl rfl (by decide)

theorem lookupA_filter {α : Type} (l : List (Nat × α)) (P : Nat × α → Bool)
    (k : Nat) (h : keysNodup l) :
    lookupA (l.filter P) k =
      (lookupA l k).bind (fun v => if P (k, v) then some v else none) := by
  induction l with
  | nil => rfl
  | cons hd tl ih =>
    obtain ⟨k2, v2⟩ := hd
    simp only [keysNodup, List.map_cons, List.nodup_cons] at h
    have ihtl := ih h.2
    by_cases hP : P (k2, v2)
    · rw [List.filter_cons_of_pos hP]
      by_cases h3 : k2 = k
      · subst h3
        simp [lookupA, hP]
      · simp only [lookupA, if_neg h3]
        exact ihtl
    · rw [List.filter_cons_of_neg hP]
      by_cases h3 : k2 = k
      · subst h3
        have hnot : k2 ∉ (tl.filter P).map Prod.fst := fun hc =>
          h.1 (((List.filter_sublist tl).map Prod.fst).subset hc)
        rw [lookupA_eq_none _ _ hnot]
        simp [lookupA, hP]
      · simp only [lookupA, if_neg h3]
        exact ihtl

/-- A state with one open capture 7 whose expected set is {1, 2}. -/
def c6State : ServerState := ⟨∅, [], [], [(7, {1, 2})], [(7, ∅)], [], []⟩

/-- The state after session 1 disconnects. -/
def c6Final : ServerState := handle_disconnect 1 none c6State

/-- C6 counterexample: the expected set of a live capture is NOT
immutable: `handle_disconnect` discards the disconnecting session
from `pending_captures[cid]` in place, so after session 1 disconnects
the capture's expected set no longer contains 1 although it did at
creation; the claim that no operation removes sessions from
`expected` is false. -/
theorem C6_cex_expected_shrinks :
    1 ∈ (lookupA c6State.pending_captures 7).getD ∅ ∧
    (lookupA c6Final.pending_captures 7).isSome = true ∧
    1 ∉ (lookupA c6Final.pending_captures 7).getD ∅ := by
  decide

/-- C6 amended: the expected set of a live capture never GROWS — a
response leaves it exactly as it was (or deletes the whole capture on
completion), a connect event does not touch it, and a disconnect can
only shrink it — but `RecordDisconnect` does remove the
disconnecting session from the expected set, deleting the capture
when the set empties. -/
theorem C6_amended_expected_never_grows (s : ServerState)
    (cid d t a sid2 ip2 : Nat) (ip : Option Nat) (ok : Bool)
    (oc : Option Nat) (E : Finset Nat)
    (hk : keysNodup s.pending_captures)
    (hE : lookupA s.pending_captures cid = some E) :
    (∀ E2, lookupA (handle_disconnect d ip s).pending_captures cid = some E2 →
      E2 ⊆ E) ∧
    (d ∈ E → lookupA (handle_disconnect d ip s).pending_captures cid =
      (if E.erase d = ∅ then none else some (E.erase d))) ∧
    (∀ E2, lookupA (handle_capture_response oc t a ok s).pending_captures cid =
      some E2 → E2 = E) ∧
    lookupA (handle_connect sid2 ip2 s).pending_captures cid = some E := by
  have hdisc : lookupA (handle_disconnect d ip s).pending_captures cid =
      (discStep d E) := by
    rw [lookupA_handle_disconnect_pending d cid ip s hk, hE]
    rfl
  refine ⟨?_, ?_, ?_, ?_⟩
  · intro E2 h2
    rw [hdisc] at h2
    unfold discStep at h2
    by_cases h3 : d ∈ E
    · rw [if_pos h3] at h2
      by_cases h4 : E.erase d = ∅
      · rw [if_pos h4] at h2
        cases h2
      · rw [if_neg h4] at h2
        rw [← Option.some_inj.mp h2]
        exact Finset.erase_subset _ _
    · rw [if_neg h3] at h2
      rw [← Option.some_inj.mp h2]
  · intro hd
    rw [hdisc]
    unfold discStep
    rw [if_pos hd]
  · intro E2 h2
    cases oc with
    | none =>
      simp only [handle_capture_response] at h2
      rw [hE] at h2
      exact (Option.some_inj.mp h2).symm
    | some cid2 =>
      cases hcl : lookupA s.pending_captures cid2 with
      | none =>
        simp only [handle_capture_response, hcl] at h2
        rw [hE] at h2
        exact (Option.some_inj.mp h2).symm
      | some E3 =>
        simp only [handle_capture_response, hcl] at h2
        split_ifs at h2 with h4
        · by_cases h5 : cid2 = cid
          · subst h5
            rw [lookupA_eraseA_self _ _ hk] at h2
            cases h2
          · rw [lookupA_eraseA_ne _ _ _ (fun h6 => h5 h6.symm), hE] at h2
            exact (Option.some_inj.mp h2).symm
        · rw [hE] at h2
          exact (Option.some_inj.mp h2).symm
  · simpa [handle_connect] using hE

/-- Witness for the amended C6 theorem at the counterexample state:
session 1's disconnect shrinks capture 7's expected set to {1,2}
minus 1, while a response from session 1 and a fresh connect leave
the set untouched. -/
theorem C6_amended_expected_never_grows_witness :
    (∀ E2, lookupA (handle_disconnect 1 none c6State).pending_captures 7 = some E2 →
      E2 ⊆ {1, 2}) ∧
    ((1 : Nat) ∈ ({1, 2} : Finset Nat) →
      lookupA (handle_disconnect 1 none c6State).pending_captures 7 =
        (if ({1, 2} : Finset Nat).erase 1 = ∅ then none
         else some (({1, 2} : Finset Nat).erase 1))) ∧
    (∀ E2, lookupA (handle_capture_response (some 7) 1 10 true c6State).pending_captures 7 =
      some E2 → E2 = {1, 2}) ∧
    lookupA (handle_connect 3 13 c6State).pending_captures 7 = some {1, 2} :=
  C6_amended_expected_never_grows c6State 7 1 1 10 3 13 none true (some 7) {1, 2}
    (by unfold keysNodup; decide) rfl

/-- A state with one live session 1 from ip 5, so the ip map holds
the mapping 5 to 1. -/
def c10State : ServerState := ⟨{1}, [(5, 1)], [], [], [], [], []⟩

/-- The state after session 1 disconnects with an unresolvable ip and
a reconciliation then runs against the transport ground truth (which
no longer knows any session). -/
def c10Final : ServerState :=
  cleanup_stale_connections ∅ (handle_disconnect 1 none c10State)

/-- C10 counterexample: when the disconnecting session's ip cannot be
resolved, the session leaves the live set but its ip mapping
survives, and a subsequent reconcile does NOT remove the stale
mapping: `cleanup_stale_connections` only drops mappings whose
session is still in the tracked live set, and session 1 already left
it; the claim that the stale mapping persists only until Reconcile
removes it is false. -/
theorem C10_cex_stale_mapping_survives_reconcile :
    1 ∉ (handle_disconnect 1 none c10State).connected_clients ∧
    lookupA (handle_disconnect 1 none c10State).client_ip_to_session_id 5 = some 1 ∧
    lookupA c10Final.client_ip_to_session_id 5 = some 1 := by
  decide

/-- C10 amended: on disconnect the ip mapping is removed only when
the disconnecting session's ip resolves and currently maps to exactly
that session; a superseded session's disconnect never clears the
newer mapping; with an unresolvable ip the session still leaves the
live set and the stale mapping persists — but Reconcile removes a
stale mapping only while its session is still in the tracked live
set; once the session has left the live set the mapping survives
reconciliation and is only replaced when a new connection from the
same ip overwrites it. -/
theorem C10_amended_ip_mapping (s : ServerState) (d a q q2 : Nat)
    (act : Finset Nat)
    (hk : keysNodup s.client_ip_to_session_id)
    (hq : lookupA s.client_ip_to_session_id a = some q) :
    (q ≠ d → (handle_disconnect d (some a) s).client_ip_to_session_id =
      s.client_ip_to_session_id) ∧
    (∀ (ip : Option Nat) (b : Nat),
      lookupA (handle_disconnect d ip s).client_ip_to_session_id b ≠
        lookupA s.client_ip_to_session_id b →
      ip = some b ∧ lookupA s.client_ip_to_session_id b = some d) ∧
    ((handle_disconnect d none s).connected_clients = s.connected_clients.erase d ∧
     (handle_disconnect d none s).client_ip_to_session_id =
       s.client_ip_to_session_id) ∧
    (q ∉ s.connected_clients →
      lookupA (cleanup_stale_connections act s).client_ip_to_session_id a = some q) ∧
    (q ∈ s.connected_clients → q ∉ act →
      lookupA (cleanup_stale_connections act s).client_ip_to_session_id a = none) ∧
    lookupA (handle_connect q2 a s).client_ip_to_session_id a = some q2 := by
  refine ⟨?_, ?_, ⟨rfl, rfl⟩, ?_, ?_, ?_⟩
  · intro hne
    have : lookupA s.client_ip_to_session_id a ≠ some d := by
      rw [hq]
      exact fun hc => hne (Option.some_inj.mp hc)
    simp [handle_disconnect, this]
  · intro ip b hne
    cases ip with
    | none => exact absurd rfl hne
    | some a2 =>
      by_cases hcond : lookupA s.client_ip_to_session_id a2 = some d
      · by_cases hab : b = a2
        · subst hab
          exact ⟨rfl, hcond⟩
        · exfalso
          apply hne
          simp only [handle_disconnect, hcond, if_pos]
          exact lookupA_eraseA_ne _ _ _ hab
      · exfalso
        apply hne
        simp [handle_disconnect, hcond]
  · intro hout
    simp only [cleanup_stale_connections]
    rw [lookupA_filter _ _ _ hk, hq]
    simp [Finset.mem_sdiff, hout]
  · intro hin hnact
    simp only [cleanup_stale_connections]
    rw [lookupA_filter _ _ _ hk, hq]
    simp [Finset.mem_sdiff, hin, hnact]
  · simpa [handle_connect] using lookupA_insertA_self s.client_ip_to_session_id a q2

/-- Witness for the amended C10 theorem at the counterexample state:
ip 5 maps to session 1, which is currently live. -/
theorem C10_amended_ip_mapping_witness :
    ((1 : Nat) ≠ 2 → (handle_disconnect 2 (some 5) c10State).client_ip_to_session_id =
      c10State.client_ip_to_session_id) ∧
    (∀ (ip : Option Nat) (b : Nat),
      lookupA (handle_disconnect 2 ip c10State).client_ip_to_session_id b ≠
        lookupA c10State.client_ip_to_session_id b →
      ip = some b ∧ lookupA c10State.client_ip_to_session_id b = some 2) ∧
    ((handle_disconnect 2 none c10State).connected_clients =
        c10State.connected_clients.erase 2 ∧
     (handle_disconnect 2 none c10State).client_ip_to_session_id =
       c10State.client_ip_to_session_id) ∧
    ((1 : Nat) ∉ c10State.connected_clients →
      lookupA (cleanup_stale_connections ∅ c10State).client_ip_to_session_id 5 = some 1) ∧
    ((1 : Nat) ∈ c10State.connected_clients → (1 : Nat) ∉ (∅ : Finset Nat) →
      lookupA (cleanup_stale_connections ∅ c10State).client_ip_to_session_id 5 = none) ∧
    lookupA (handle_connect 9 5 c10State).client_ip_to_session_id 5 = some 9 :=
  C10_amended_ip_mapping c10State 2 5 1 9 ∅ (by unfold keysNodup; decide) rfl

theorem trigger_pending (act : Finset Nat) (t : Nat) (s : ServerState) :
    ((trigger_capture act t s).2).pending_captures =
      if (cleanup_stale_connections act s).connected_clients = ∅ then
        s.pending_captures
      else
        insertA s.pending_captures t
          (cleanup_stale_connections act s).connected_clients := by
  simp only [trigger_capture]
  split_ifs with h
  · rfl
  · rfl

/-- C7: capture ids are the microsecond timestamps observed at
trigger time; provided the two triggers observe distinct timestamps
(the content of `time-derived, unique per trigger`: the strftime
format is injective on microsecond timestamps), the two opens use
distinct keys of the `pending_captures` dict, so the dict keeps at
most one live entry per id, every other live capture's entry is
untouched, and the first capture's entry is never overwritten by the
second open while it is live. -/
theorem C7_fresh_ids_unique (s : ServerState) (act1 act2 : Finset Nat)
    (t1 t2 : Nat) (hne : t1 ≠ t2) (hk : keysNodup s.pending_captures) :
    keysNodup ((trigger_capture act2 t2
      (trigger_capture act1 t1 s).2).2).pending_captures ∧
    (∀ cid, cid ≠ t1 → cid ≠ t2 →
      lookupA ((trigger_capture act2 t2
        (trigger_capture act1 t1 s).2).2).pending_captures cid =
      lookupA s.pending_captures cid) ∧
    ((cleanup_stale_connections act1 s).connected_clients ≠ ∅ →
      lookupA ((trigger_capture act2 t2
        (trigger_capture act1 t1 s).2).2).pending_captures t1 =
      some (cleanup_stale_connections act1 s).connected_clients) := by
  rw [trigger_pending act2 t2, trigger_pending act1 t1]
  by_cases hB : (cleanup_stale_connections act1 s).connected_clients = ∅
  · rw [if_pos hB]
    by_cases hA : (cleanup_stale_connections act2
        (trigger_capture act1 t1 s).2).connected_clients = ∅
    · rw [if_pos hA]
      exact ⟨hk, fun cid _ _ => rfl, fun hc => absurd hB hc⟩
    · rw [if_neg hA]
      exact ⟨keysNodup_insertA _ _ _ hk,
        fun cid hc1 hc2 => lookupA_insertA_ne _ _ _ _ hc2,
        fun hc => absurd hB hc⟩
  · rw [if_neg hB]
    by_cases hA : (cleanup_stale_connections act2
        (trigger_capture act1 t1 s).2).connected_clients = ∅
    · rw [if_pos hA]
      exact ⟨keysNodup_insertA _ _ _ hk,
        fun cid hc1 hc2 => lookupA_insertA_ne _ _ _ _ hc1,
        fun hc => lookupA_insertA_self _ _ _⟩
    · rw [if_neg hA]
      refine ⟨keysNodup_insertA _ _ _ (keysNodup_insertA _ _ _ hk),
        fun cid hc1 hc2 => ?_, fun hc => ?_⟩
      · rw [lookupA_insertA_ne _ _ _ _ hc2, lookupA_insertA_ne _ _ _ _ hc1]
      · rw [lookupA_insertA_ne _ _ _ _ hne]
        exact lookupA_insertA_self _ _ _

/-- Witness for C7: two triggers with timestamps 1 and 2 on a state
with one connected client. -/
theorem C7_fresh_ids_unique_witness :
    keysNodup ((trigger_capture {1} 2
      (trigger_capture {1} 1 c10State).2).2).pending_captures ∧
    (∀ cid, cid ≠ 1 → cid ≠ 2 →
      lookupA ((trigger_capture {1} 2
        (trigger_capture {1} 1 c10State).2).2).pending_captures cid =
      lookupA c10State.pending_captures cid) ∧
    ((cleanup_stale_connections {1} c10State).connected_clients ≠ ∅ →
      lookupA ((trigger_capture {1} 2
        (trigger_capture {1} 1 c10State).2).2).pending_captures 1 =
      some (cleanup_stale_connections {1} c10State).connected_clients) :=
  C7_fresh_ids_unique c10State {1} {1} 1 2 (by decide)
    (by unfold keysNodup; decide)

/-- C8: `trigger_capture` first reconciles through
`cleanup_stale_connections` and then tests the reconciled live set;
when that snapshot is empty it returns `false` (the
`NoClientsConnected` outcome) together with the reconciled state,
opens no capture, and leaves `pending_captures`, `capture_responses`,
`capture_image_paths` and the notification log exactly as they were. -/
theorem C8_trigger_no_clients (s : ServerState) (act : Finset Nat) (t : Nat)
    (h : (cleanup_stale_connections act s).connected_clients = ∅) :
    trigger_capture act t s = (false, cleanup_stale_connections act s) ∧
    (trigger_capture act t s).2.pending_captures = s.pending_captures ∧
    (trigger_capture act t s).2.capture_responses = s.capture_responses ∧
    (trigger_capture act t s).2.capture_image_paths = s.capture_image_paths ∧
    (trigger_capture act t s).2.notifications = s.notifications := by
  have h1 : trigger_capture act t s = (false, cleanup_stale_connections act s) := by
    simp [trigger_capture, h]
  rw [h1]
  exact ⟨rfl, rfl, rfl, rfl, rfl⟩

/-- Witness for C8: a trigger against the empty initial state. -/
theorem C8_trigger_no_clients_witness :
    trigger_capture ∅ 42 initState = (false, cleanup_stale_connections ∅ initState) ∧
    (trigger_capture ∅ 42 initState).2.pending_captures = initState.pending_captures ∧
    (trigger_capture ∅ 42 initState).2.capture_responses = initState.capture_responses ∧
    (trigger_capture ∅ 42 initState).2.capture_image_paths =
      initState.capture_image_paths ∧
    (trigger_capture ∅ 42 initState).2.notifications = initState.notifications :=
  C8_trigger_no_clients initState ∅ 42 rfl

/-- The states and frame numbers of the C9 scenario: identity (ip) 5
connects as session 1 and uploads two frames; the session then
disconnects and the same identity reconnects as session 2 and
uploads a third frame.  Tracking ids are the websocket session ids,
exactly as `save_frame_files` chooses them. -/
def c9s0 : ServerState := handle_connect 1 5 initState

/-- First upload of identity 5 (session 1): frame number and state. -/
def c9r1 : Nat × ServerState := save_frame_counter (trackingIdOf (some 1) 99) c9s0

/-- Second upload of identity 5 (session 1). -/
def c9r2 : Nat × ServerState := save_frame_counter (trackingIdOf (some 1) 99) c9r1.2

/-- Identity 5 reconnects as session 2 after session 1 disconnects. -/
def c9s3 : ServerState := handle_connect 2 5 (handle_disconnect 1 (some 5) c9r2.2)

/-- Third upload of identity 5, now tracked under session 2 (the ip
map resolves ip 5 to the new session). -/
def c9r3 : Nat × ServerState :=
  save_frame_counter (trackingIdOf (lookupA c9s3.client_ip_to_session_id 5) 99) c9s3

/-- C9 counterexample: frame numbers are NOT monotonic per identity
across reconnects: identity 5 receives frames 1 and 2 over session 1,
but after reconnecting as session 2 its next frame is numbered 1
again (the counter is keyed by the websocket session id, which
changed), so the sequence 1, 2, 1 is not strictly increasing. -/
theorem C9_cex_counter_resets_on_reconnect :
    c9r1.1 = 1 ∧ c9r2.1 = 2 ∧
    trackingIdOf (lookupA c9s3.client_ip_to_session_id 5) 99 = 2 ∧
    c9r3.1 = 1 ∧ ¬ c9r2.1 < c9r3.1 := by
  decide

/-- C9 amended: frame numbering is strictly monotonic per TRACKING id
(the websocket session id when available, else the server client id):
successive saves under the same tracking id return strictly
increasing frame numbers, and a tracking id never seen before (such
as the fresh session id after a reconnect) restarts at frame 1. -/
theorem C9_amended_monotonic_per_tracking_id (s : ServerState) (t t2 : Nat) :
    (save_frame_counter t (save_frame_counter t s).2).1 =
      (save_frame_counter t s).1 + 1 ∧
    (save_frame_counter t s).1 < (save_frame_counter t (save_frame_counter t s).2).1 ∧
    (lookupA s.frame_counters t2 = none → (save_frame_counter t2 s).1 = 1) := by
  have h1 : (save_frame_counter t (save_frame_counter t s).2).1 =
      (save_frame_counter t s).1 + 1 := by
    simp [save_frame_counter, lookupA_insertA_self]
  refine ⟨h1, ?_, ?_⟩
  · rw [h1]
    exact Nat.lt_succ_self _
  · intro h2
    simp [save_frame_counter, h2]

/-- Witness for the amended C9 theorem at the initial state. -/
theorem C9_amended_monotonic_per_tracking_id_witness :
    (save_frame_counter 1 (save_frame_counter 1 initState).2).1 =
      (save_frame_counter 1 initState).1 + 1 ∧
    (save_frame_counter 1 initState).1 <
      (save_frame_counter 1 (save_frame_counter 1 initState).2).1 ∧
    (lookupA initState.frame_counters 2 = none →
      (save_frame_counter 2 initState).1 = 1) :=
  C9_amended_monotonic_per_tracking_id initState 1 2

theorem run_nil (s : ServerState) : run [] s = s := rfl

theorem run_cons (e : Event) (es : List Event) (s : ServerState) :
    run (e :: es) s = run es (step e s) := rfl

theorem handle_capture_response_complete (s : ServerState) (cid t a : Nat)
    (ok : Bool) (E R : Finset Nat) (P : List Nat)
    (hp : lookupA s.pending_captures cid = some E)
    (hR : (lookupA s.capture_responses cid).getD ∅ = R)
    (hP : (lookupA s.capture_image_paths cid).getD [] = P)
    (hc : E ⊆ insert t R) :
    handle_capture_response (some cid) t a ok s =
      { s with
        pending_captures := eraseA s.pending_captures cid
        capture_responses := eraseA s.capture_responses cid
        capture_image_paths := eraseA s.capture_image_paths cid
        notifications := s.notifications ++ [(cid, P ++ [a], ok)] } := by
  simp [handle_capture_response, hp, hR, hP, if_pos hc]

theorem handle_capture_response_still_pending (s : ServerState) (cid t a : Nat)
    (ok : Bool) (E R : Finset Nat) (P : List Nat)
    (hp : lookupA s.pending_captures cid = some E)
    (hR : (lookupA s.capture_responses cid).getD ∅ = R)
    (hP : (lookupA s.capture_image_paths cid).getD [] = P)
    (hnc : ¬ E ⊆ insert t R) :
    handle_capture_response (some cid) t a ok s =
      { s with
        capture_responses := insertA s.capture_responses cid (insert t R)
        capture_image_paths := insertA s.capture_image_paths cid (P ++ [a]) } := by
  simp [handle_capture_response, hp, hR, hP, if_neg hnc]

theorem respond_run (cid : Nat) (ok : Bool) (l : List (Nat × Nat)) :
    ∀ (s : ServerState) (R : Finset Nat) (P : List Nat),
    l ≠ [] → (l.map Prod.fst).Nodup →
    (∀ x ∈ l.map Prod.fst, x ∉ R) →
    keysNodup s.pending_captures → keysNodup s.capture_responses →
    keysNodup s.capture_image_paths →
    lookupA s.pending_captures cid = some (R ∪ (l.map Prod.fst).toFinset) →
    (lookupA s.capture_responses cid).getD ∅ = R →
    (lookupA s.capture_image_paths cid).getD [] = P →
    lookupA (run (l.map fun p => Event.frameResponse p.1 (some cid) p.2 ok)
      s).pending_captures cid = none ∧
    lookupA (run (l.map fun p => Event.frameResponse p.1 (some cid) p.2 ok)
      s).capture_responses cid = none ∧
    lookupA (run (l.map fun p => Event.frameResponse p.1 (some cid) p.2 ok)
      s).capture_image_paths cid = none ∧
    (run (l.map fun p => Event.frameResponse p.1 (some cid) p.2 ok)
      s).notifications = s.notifications ++ [(cid, P ++ l.map Prod.snd, ok)] := by
  induction l with
  | nil =>
    intro s R P hne _ _ _ _ _ _ _ _
    exact absurd rfl hne
  | cons hd tl ih =>
    intro s R P _ hnodup hdisj hk1 hk2 hk3 hp hR hP
    obtain ⟨t, a⟩ := hd
    simp only [List.map_cons, List.nodup_cons] at hnodup
    have hdisjtl : ∀ x ∈ tl.map Prod.fst, x ∉ R := fun x hx =>
      hdisj x (by simp [hx])
    rcases tl with _ | ⟨hd2, tl2⟩
    · have hc : R ∪ ((((t, a) :: List.nil).map Prod.fst).toFinset) ⊆ insert t R := by
        simp [Finset.union_subset_iff, Finset.subset_insert]
      have hstep : step (Event.frameResponse t (some cid) a ok) s =
          { (save_frame_counter t s).2 with
            pending_captures := eraseA s.pending_captures cid
            capture_responses := eraseA s.capture_responses cid
            capture_image_paths := eraseA s.capture_image_paths cid
            notifications := s.notifications ++ [(cid, P ++ [a], ok)] } :=
        handle_capture_response_complete _ cid t a ok _ R P hp hR hP hc
      rw [List.map_cons, List.map_nil, run_cons, run_nil, hstep]
      refine ⟨lookupA_eraseA_self _ _ hk1, lookupA_eraseA_self _ _ hk2,
        lookupA_eraseA_self _ _ hk3, ?_⟩
      simp
    · obtain ⟨u, b⟩ := hd2
      have humem : u ∈ ((u, b) :: tl2).map Prod.fst := by simp
      have hnc : ¬ (R ∪ ((((t, a) :: (u, b) :: tl2).map Prod.fst).toFinset)) ⊆
          insert t R := by
        intro hsub
        have hu : u ∈ R ∪ ((((t, a) :: (u, b) :: tl2).map Prod.fst).toFinset) := by
          refine Finset.mem_union_right _ ?_
          simp
        rcases Finset.mem_insert.mp (hsub hu) with h | h
        · exact hnodup.1 (by simp [← h])
        · exact hdisjtl u humem h
      have hstep : step (Event.frameResponse t (some cid) a ok) s =
          { (save_frame_counter t s).2 with
            capture_responses := insertA s.capture_responses cid (insert t R)
            capture_image_paths := insertA s.capture_image_paths cid (P ++ [a]) } :=
        handle_capture_response_still_pending _ cid t a ok _ R P hp hR hP hnc
      rw [List.map_cons, run_cons, hstep]
      have hE2 : R ∪ ((((t, a) :: (u, b) :: tl2).map Prod.fst).toFinset) =
          (insert t R) ∪ ((((u, b) :: tl2).map Prod.fst).toFinset) := by
        rw [List.map_cons, List.toFinset_cons, Finset.union_insert,
          Finset.insert_union]
      have hlp : lookupA s.pending_captures cid =
          some ((insert t R) ∪ ((((u, b) :: tl2).map Prod.fst).toFinset)) := by
        rw [hp, hE2]
      have hdisj2 : ∀ x ∈ ((u, b) :: tl2).map Prod.fst, x ∉ insert t R := by
        intro x hx
        rw [Finset.mem_insert]
        push_neg
        exact ⟨fun he => hnodup.1 (he ▸ hx), hdisjtl x hx⟩
      obtain ⟨ih1, ih2, ih3, ih4⟩ := ih
        { (save_frame_counter t s).2 with
          capture_responses := insertA s.capture_responses cid (insert t R)
          capture_image_paths := insertA s.capture_image_paths cid (P ++ [a]) }
        (insert t R) (P ++ [a]) (List.cons_ne_nil _ _) hnodup.2 hdisj2
        hk1 (keysNodup_insertA _ _ _ hk2) (keysNodup_insertA _ _ _ hk3)
        hlp (by simp [lookupA_insertA_self]) (by simp [lookupA_insertA_self])
      refine ⟨ih1, ih2, ih3, ?_⟩
      rw [ih4]
      simp [save_frame_counter]

/-- C4: if every member of a capture's expected set responds exactly
once (in any order, `l` listing the distinct expected sessions with
their artifacts), the capture completes on the last response: all
three ledger entries for the capture id are deleted — for every
outcome `ok` of the downstream call, i.e. even when the `/process`
call fails — the `/process` endpoint is called exactly once, with the
ordered artifact list whose length equals the size of the expected
set, and any later response bearing the same capture id is a no-op. -/
theorem C4_all_respond_completes (s : ServerState) (cid : Nat) (ok : Bool)
    (l : List (Nat × Nat))
    (hne : l ≠ []) (hnodup : (l.map Prod.fst).Nodup)
    (hk1 : keysNodup s.pending_captures) (hk2 : keysNodup s.capture_responses)
    (hk3 : keysNodup s.capture_image_paths)
    (hp : lookupA s.pending_captures cid = some ((l.map Prod.fst).toFinset))
    (hR : lookupA s.capture_responses cid = some ∅)
    (hP : lookupA s.capture_image_paths cid = none) :
    lookupA (run (l.map fun p => Event.frameResponse p.1 (some cid) p.2 ok)
      s).pending_captures cid = none ∧
    (run (l.map fun p => Event.frameResponse p.1 (some cid) p.2 ok)
      s).notifications = s.notifications ++ [(cid, l.map Prod.snd, ok)] ∧
    (l.map Prod.snd).length = ((l.map Prod.fst).toFinset).card ∧
    (∀ (t2 a2 : Nat) (ok2 : Bool),
      handle_capture_response (some cid) t2 a2 ok2
        (run (l.map fun p => Event.frameResponse p.1 (some cid) p.2 ok) s) =
      run (l.map fun p => Event.frameResponse p.1 (some cid) p.2 ok) s) := by
  have hp2 : lookupA s.pending_captures cid =
      some (∅ ∪ (l.map Prod.fst).toFinset) := by
    rw [hp, Finset.empty_union]
  obtain ⟨h1, h2, h3, h4⟩ := respond_run cid ok l s ∅ [] hne hnodup
    (fun x _ => Finset.not_mem_empty x) hk1 hk2 hk3 hp2
    (by rw [hR]; rfl) (by rw [hP]; rfl)
  refine ⟨h1, by simpa using h4, ?_, ?_⟩
  · rw [List.length_map, List.toFinset_card_of_nodup hnodup, List.length_map]
  · intro t2 a2 ok2
    simp [handle_capture_response, h1]

/-- A state with one open capture 5 expecting exactly the sessions of
the C4 witness response list, nobody responded yet. -/
def c4State : ServerState :=
  ⟨∅, [], [], [(5, (([(1, 10), (2, 20)] : List (Nat × Nat)).map Prod.fst).toFinset)],
    [(5, ∅)], [], []⟩

/-- Witness for C4: sessions 1 and 2 respond with artifacts 10 and 20
to capture 5 of `c4State`, with a failing downstream call. -/
theorem C4_all_respond_completes_witness :
    lookupA (run (([(1, 10), (2, 20)] : List (Nat × Nat)).map
        fun p => Event.frameResponse p.1 (some 5) p.2 false)
      c4State).pending_captures 5 = none ∧
    (run (([(1, 10), (2, 20)] : List (Nat × Nat)).map
        fun p => Event.frameResponse p.1 (some 5) p.2 false)
      c4State).notifications =
      c4State.notifications ++
        [(5, ([(1, 10), (2, 20)] : List (Nat × Nat)).map Prod.snd, false)] ∧
    ((([(1, 10), (2, 20)] : List (Nat × Nat)).map Prod.snd).length =
      ((([(1, 10), (2, 20)] : List (Nat × Nat)).map Prod.fst).toFinset).card) ∧
    (∀ (t2 a2 : Nat) (ok2 : Bool),
      handle_capture_response (some 5) t2 a2 ok2
        (run (([(1, 10), (2, 20)] : List (Nat × Nat)).map
          fun p => Event.frameResponse p.1 (some 5) p.2 false) c4State) =
      run (([(1, 10), (2, 20)] : List (Nat × Nat)).map
        fun p => Event.frameResponse p.1 (some 5) p.2 false) c4State) :=
  C4_all_respond_completes c4State 5 false [(1, 10), (2, 20)]
    (by decide) (by decide) (by unfold keysNodup; decide)
    (by unfold keysNodup; decide) (by unfold keysNodup; decide)
    rfl rfl rfl

theorem disconnect_run (cid : Nat) (l : List (Nat × Option Nat)) :
    ∀ s : ServerState,
    l ≠ [] → (l.map Prod.fst).Nodup → keysNodup s.pending_captures →
    lookupA s.pending_captures cid = some ((l.map Prod.fst).toFinset) →
    lookupA (run (l.map fun p => Event.disconnect p.1 p.2) s).pending_captures cid
      = none ∧
    (run (l.map fun p => Event.disconnect p.1 p.2) s).notifications =
      s.notifications := by
  induction l with
  | nil =>
    intro s hne _ _ _
    exact absurd rfl hne
  | cons hd tl ih =>
    intro s _ hnodup hk hp
    obtain ⟨d, ip⟩ := hd
    simp only [List.map_cons, List.nodup_cons] at hnodup
    have hdS : d ∉ (tl.map Prod.fst).toFinset := by
      rw [List.mem_toFinset]
      exact hnodup.1
    have hlook : lookupA (handle_disconnect d ip s).pending_captures cid =
        discStep d (((d :: tl.map Prod.fst)).toFinset) := by
      rw [lookupA_handle_disconnect_pending d cid ip s hk, hp]
      rfl
    have herase : ((d :: tl.map Prod.fst).toFinset).erase d =
        (tl.map Prod.fst).toFinset := by
      rw [List.toFinset_cons, Finset.erase_insert hdS]
    rcases tl with _ | ⟨hd2, tl2⟩
    · have hnone : lookupA (handle_disconnect d ip s).pending_captures cid = none := by
        rw [hlook]
        unfold discStep
        rw [if_pos (by simp), herase]
        simp
      rw [List.map_cons, List.map_nil, run_cons, run_nil]
      exact ⟨hnone, rfl⟩
    · have hne2 : (((hd2 :: tl2).map Prod.fst).toFinset) ≠ ∅ := by
        intro hc
        have : hd2.1 ∈ (((hd2 :: tl2).map Prod.fst).toFinset) := by
          rw [List.mem_toFinset]
          simp
        rw [hc] at this
        exact Finset.not_mem_empty _ this
      have hsome : lookupA (handle_disconnect d ip s).pending_captures cid =
          some (((hd2 :: tl2).map Prod.fst).toFinset) := by
        rw [hlook]
        unfold discStep
        rw [if_pos (by simp), herase, if_neg hne2]
      have hstep : step (Event.disconnect (d, ip).1 (d, ip).2) s =
          handle_disconnect d ip s := rfl
      rw [List.map_cons, run_cons, hstep]
      obtain ⟨ih1, ih2⟩ := ih (handle_disconnect d ip s) (List.cons_ne_nil _ _)
        hnodup.2 (keysNodup_disconnectCaptures _ _ hk) hsome
      exact ⟨ih1, by rw [ih2]; rfl⟩

/-- C5: if every member of a capture's expected set disconnects
without responding (`l` lists the distinct expected sessions with the
optional ip each disconnect resolves), the capture is removed from
the live ledger (aborted) by the last disconnect, and the `/process`
endpoint is never called for it (the notification log is unchanged —
the disconnect path never notifies); moreover a disconnect never
aborts a capture while another expected session remains: if some
session other than the disconnecting one is still in the capture's
expected set, the capture stays live. -/
theorem C5_all_disconnect_aborts (s : ServerState) (cid : Nat)
    (l : List (Nat × Option Nat))
    (hne : l ≠ []) (hnodup : (l.map Prod.fst).Nodup)
    (hk : keysNodup s.pending_captures)
    (hp : lookupA s.pending_captures cid = some ((l.map Prod.fst).toFinset)) :
    (lookupA (run (l.map fun p => Event.disconnect p.1 p.2) s).pending_captures cid
      = none ∧
     (run (l.map fun p => Event.disconnect p.1 p.2) s).notifications =
       s.notifications) ∧
    (∀ (s2 : ServerState) (d x : Nat) (ip : Option Nat) (E : Finset Nat),
      keysNodup s2.pending_captures →
      lookupA s2.pending_captures cid = some E → x ∈ E → x ≠ d →
      (lookupA (handle_disconnect d ip s2).pending_captures cid).isSome = true) := by
  refine ⟨disconnect_run cid l s hne hnodup hk hp, ?_⟩
  intro s2 d x ip E hk2 hE hx hxd
  rw [lookupA_handle_disconnect_pending d cid ip s2 hk2, hE]
  show (discStep d E).isSome = true
  unfold discStep
  by_cases hd : d ∈ E
  · rw [if_pos hd]
    have hxe : x ∈ E.erase d := Finset.mem_erase.mpr ⟨hxd, hx⟩
    have hneq : E.erase d ≠ ∅ := fun hc => Finset.not_mem_empty x (hc ▸ hxe)
    rw [if_neg hneq]
    rfl
  · rw [if_neg hd]
    rfl

/-- A state with one open capture 5 expecting exactly the sessions of
the C5 witness disconnect list, nobody responded. -/
def c5State : ServerState :=
  ⟨∅, [], [],
    [(5, (([(1, some 11), (2, none)] : List (Nat × Option Nat)).map
      Prod.fst).toFinset)], [(5, ∅)], [], []⟩

/-- Witness for C5: both expected sessions of capture 5 in `c5State`
disconnect (one with a resolvable ip, one without), and a single
disconnect in a two-member capture leaves it live. -/
theorem C5_all_disconnect_aborts_witness :
    (lookupA (run (([(1, some 11), (2, none)] : List (Nat × Option Nat)).map
        fun p => Event.disconnect p.1 p.2) c5State).pending_captures 5 = none ∧
     (run (([(1, some 11), (2, none)] : List (Nat × Option Nat)).map
        fun p => Event.disconnect p.1 p.2) c5State).notifications =
       c5State.notifications) ∧
    (∀ (s2 : ServerState) (d x : Nat) (ip : Option Nat) (E : Finset Nat),
      keysNodup s2.pending_captures →
      lookupA s2.pending_captures 5 = some E → x ∈ E → x ≠ d →
      (lookupA (handle_disconnect d ip s2).pending_captures 5).isSome = true) :=
  C5_all_disconnect_aborts c5State 5 [(1, some 11), (2, none)]
    (by decide) (by decide) (by unfold keysNodup; decide) rfl

end ImageSender
